import Mathlib

/-!
Verification development for the utdns UDP-to-TCP DNS translator
(src/utdns.c, final revision).  The transaction table, the per-slot
state machine and one iteration of the dispatch_packets event loop are
embedded as executable Lean functions; socket results (select readiness,
recvfrom, connect, recv, send, getsockopt/SO_ERROR, sendto) are supplied
by an oracle so that one loop iteration becomes a pure function of the
table and the oracle.
-/

/-- Maximum number of concurrent transactions (MAX_TRX in utdns.c). -/
def MAX_TRX : Nat := 512

/-- Timeout in seconds after which a stale transaction is removed. -/
def TIMEOUT : Int := 10

/-- Frame size constant; the slot buffer has capacity FRAMESIZE + 2 bytes. -/
def FRAMESIZE : Nat := 65536

/-- Connection states of a transaction (enum in utdns.c). -/
def CONN_STATE_NA : Nat := 0

/-- State while data is waiting to be sent to the name server. -/
def CONN_STATE_SEND : Nat := 1

/-- State while the response from the name server is being received. -/
def CONN_STATE_RECV : Nat := 2

/-- Transaction slot, mirroring struct dns_trx.  The byte buffer data is
modelled as the list of bytes written so far from offset 0; bytes beyond
the list are the zero bytes calloc put there, and buffer reads use getD
with default 0 accordingly.  data_len is the count of meaningful bytes
from offset 0 (the C field data_len). -/
structure dns_trx where
  addr : Nat
  time : Int
  dst_sock : Int
  in_sock : Int
  conn_state : Nat
  data_len : Nat
  data : List Nat
  deriving DecidableEq, Repr

/-- Zeroed slot as produced by calloc in main. -/
def initTrx : dns_trx := ⟨0, 0, 0, 0, 0, 0, []⟩

instance : Inhabited dns_trx := ⟨initTrx⟩

/-- Byte i of the slot buffer (unwritten bytes read as 0, as after calloc). -/
def bufGet (t : dns_trx) (i : Nat) : Nat := t.data.getD i 0

/-- Big-endian 16-bit read of the first two buffer bytes,
ntohs applied to bytes 0 and 1 as in line 547 of utdns.c. -/
def ntohs_at (t : dns_trx) : Nat := bufGet t 0 * 256 + bufGet t 1

/-- Meaningful bytes of the slot buffer: bytes 0 .. data_len. -/
def dns_trx.meaning (t : dns_trx) : List Nat :=
  (List.range t.data_len).map (bufGet t)

/-- Overwrite bytes off .. off + v.length of buffer l with v, keeping the
rest; a gap between the written part of l and off is filled with the zero
bytes that are physically there. -/
def writeAt (l : List Nat) (off : Nat) (v : List Nat) : List Nat :=
  (l.take off ++ List.replicate (off - l.length) 0) ++ v ++ l.drop (off + v.length)

/-- Completion test of the TCP reassembly, exactly the condition
data_len - 2 == ntohs(data[0..2)) computed in C int arithmetic
(utdns.c line 547). -/
def tcp_message_complete (t : dns_trx) : Prop :=
  (t.data_len : Int) - 2 = (ntohs_at t : Int)

instance (t : dns_trx) : Decidable (tcp_message_complete t) :=
  inferInstanceAs (Decidable ((t.data_len : Int) - 2 = (ntohs_at t : Int)))

/-- Index of the first free slot: the search loop of get_free_trx, whose
free criterion is dst_sock <= 0. -/
def get_free_idx : List dns_trx → Option Nat
  | [] => none
  | t :: ts =>
    if t.dst_sock ≤ 0 then some 0
    else (get_free_idx ts).map (· + 1)

/-- Lookup of a free transaction slot (get_free_trx in utdns.c): returns
the table with the conn_state of the found slot reset to CONN_STATE_NA,
together with the index of that slot. -/
def get_free_trx (tbl : List dns_trx) : List dns_trx × Option Nat :=
  match get_free_idx tbl with
  | none => (tbl, none)
  | some i =>
    (tbl.set i { tbl.getD i initTrx with conn_state := CONN_STATE_NA }, some i)

/-- Result of one recv call on the upstream TCP socket. -/
inductive RecvRes where
  | err : RecvRes
  | ok : List Nat → RecvRes
  deriving DecidableEq, Repr

/-- Result of one send call on the upstream TCP socket. -/
inductive SendRes where
  | err : SendRes
  | ok : Nat → SendRes
  deriving DecidableEq, Repr

/-- Result of the getsockopt SO_ERROR probe after connect. -/
inductive SockErrRes where
  | fail : SockErrRes
  | soErr : Nat → SockErrRes
  deriving DecidableEq, Repr

/-- Log events emitted at the logging call sites of dispatch_packets and
its helpers (debug-only lines are not modelled). -/
inductive LogEv where
  | staleRemoved : LogEv
  | emergBadState : Nat → LogEv
  | selectFailed : LogEv
  | tableFull : LogEv
  | recvfromFailed : LogEv
  | udpIn : LogEv
  | connectFailed : LogEv
  | dropRequest : LogEv
  | shortDatagram : Nat → LogEv
  | acceptFailed : LogEv
  | acceptedSession : LogEv
  | recvFailed : LogEv
  | replied : LogEv
  | sendtoFailed : LogEv
  | truncatedWaiting : LogEv
  | getsockoptFailed : LogEv
  | soError : Nat → LogEv
  | sendFailed : LogEv
  | sendTruncated : LogEv
  | dropClosing : LogEv
  deriving DecidableEq, Repr

/-- Per-slot socket oracle for one loop iteration: whether select reported
the slot descriptor readable resp. writable, and the results the kernel
would return for recv, getsockopt and send on it, plus whether the final
sendto back to the client succeeds. -/
structure SlotOracle where
  rdReady : Bool
  wrReady : Bool
  recv : RecvRes
  sockErr : SockErrRes
  send : SendRes
  sendtoOk : Bool

/-- Oracle for one whole iteration of dispatch_packets. -/
structure IterOracle where
  curr : Int
  tAlloc : Int
  selectFail : Bool
  udpReady : Bool
  tcpReady : Bool
  recvfrom : Option (Nat × List Nat)
  connectRes : Option Int
  acceptRes : Option (Nat × Int)
  slots : Nat → SlotOracle

/-- Per-slot step of the set-building loop at the top of dispatch_packets
(lines 421 .. 457): skip free slots, close stale slots, otherwise record
whether the descriptor participates in the write set (state SEND) or the
read set (state RECV); the impossible state logs an emergency line.
The returned booleans are the readiness select would report, i.e. the
oracle readiness masked by set membership. -/
def sweepSet (curr : Int) (sio : SlotOracle) (t : dns_trx) :
    dns_trx × Bool × Bool × List LogEv :=
  if t.dst_sock ≤ 0 then (t, false, false, [])
  else if t.time < curr - TIMEOUT then
    ({ t with dst_sock := 0 }, false, false, [.staleRemoved])
  else if t.conn_state = CONN_STATE_SEND then (t, false, sio.wrReady, [])
  else if t.conn_state = CONN_STATE_RECV then (t, sio.rdReady, false, [])
  else (t, false, false, [.emergBadState t.conn_state])

/-- Set-building pass over the table starting at absolute slot index i:
applies sweepSet to every slot and collects the (readable, writable)
flags per slot. -/
def buildPass (curr : Int) (io : IterOracle) :
    List dns_trx → Nat → List dns_trx × List (Bool × Bool) × List LogEv
  | [], _ => ([], [], [])
  | t :: ts, i =>
    let r := sweepSet curr (io.slots i) t
    let rest := buildPass curr io ts (i + 1)
    (r.1 :: rest.1, (r.2.1, r.2.2.1) :: rest.2.1, r.2.2.2 ++ rest.2.2)

/-- Result of the UDP input block. -/
structure UdpRes where
  tbl : List dns_trx
  logs : List LogEv
  consumed : Bool
  fatal : Bool

/-- UDP input block of dispatch_packets (lines 468 .. 506).  If the table
is full only a warning is logged and recvfrom is not called, so the
datagram stays queued on the socket.  Otherwise the datagram is read into
the slot buffer at offset 2; a failing recvfrom makes the dispatcher
return -1.  Datagrams of at least 12 bytes are framed (big-endian length
prefix at offset 0, data_len raised by 2) and the slot enters
CONN_STATE_SEND on a fresh connect; a failed connect stores -1 in
dst_sock and zeroes data_len; shorter datagrams are only logged, leaving
data_len at the datagram length. -/
def udpPhase (io : IterOracle) (tbl : List dns_trx) : UdpRes :=
  if !io.udpReady then ⟨tbl, [], false, false⟩
  else
    match get_free_trx tbl with
    | (tbl1, none) => ⟨tbl1, [.tableFull], false, false⟩
    | (tbl1, some i) =>
      match io.recvfrom with
      | none => ⟨tbl1, [.recvfromFailed], true, true⟩
      | some (a, dg0) =>
        let dg := (dg0.map (· % 256)).take FRAMESIZE
        let n := dg.length
        let t0 := tbl1.getD i initTrx
        let t1 := { t0 with addr := a, data := writeAt t0.data 2 dg, data_len := n }
        if 12 ≤ n then
          match io.connectRes with
          | none =>
            ⟨tbl1.set i { t1 with dst_sock := -1, data_len := 0 },
              [.udpIn, .connectFailed, .dropRequest], true, false⟩
          | some fd =>
            let t2 := { t1 with
                        dst_sock := fd, conn_state := CONN_STATE_SEND,
                        data := writeAt t1.data 0 [n / 256 % 256, n % 256],
                        data_len := n + 2, time := io.tAlloc }
            ⟨tbl1.set i t2, [.udpIn], true, false⟩
        else ⟨tbl1.set i t1, [.shortDatagram n], true, false⟩

/-- Incoming TCP block of dispatch_packets (lines 509 .. 524).  The
handler is unfinished in the source: it takes a free slot, accepts into
in_sock and the address field, and never sets dst_sock, so the slot stays
free. -/
def tcpPhase (io : IterOracle) (tbl : List dns_trx) : List dns_trx × List LogEv :=
  if !io.tcpReady then (tbl, [])
  else
    match get_free_trx tbl with
    | (tbl1, none) => (tbl1, [.tableFull])
    | (tbl1, some i) =>
      match io.acceptRes with
      | none =>
        (tbl1.set i { tbl1.getD i initTrx with in_sock := -1 },
          [.acceptFailed, .acceptedSession])
      | some (a, fd) =>
        (tbl1.set i { tbl1.getD i initTrx with in_sock := fd, addr := a },
          [.acceptedSession])

/-- Send step toward the name server (send_to_dns in utdns.c).  The send
result is supplied by the oracle; on error the function reports none and
the caller closes the slot.  A partial send compacts the buffer with
memmove and keeps the state; a full send bumps the state to
CONN_STATE_RECV.  data_len is decremented by the sent count in both
cases. -/
def send_to_dns (res : SendRes) (t : dns_trx) : Option dns_trx × List LogEv :=
  match res with
  | .err => (none, [.sendFailed])
  | .ok k =>
    if k < t.data_len then
      let t1 := { t with
                  data := writeAt t.data 0
                    ((List.range (t.data_len - k)).map (fun j => bufGet t (k + j))),
                  data_len := t.data_len - k }
      (some t1, [.sendTruncated])
    else
      (some { t with conn_state := CONN_STATE_RECV, data_len := t.data_len - k },
        [])

/-- Accumulation part of the read block (lines 536 and 544): recv appends
bytes at offset data_len, capped by the remaining buffer capacity
sizeof(data) - data_len, and data_len grows by the received count;
each stored byte is one char, hence the mod 256 at the boundary. -/
def recvAppend (t : dns_trx) (chunk0 : List Nat) : dns_trx :=
  let chunk := (chunk0.map (· % 256)).take (FRAMESIZE + 2 - t.data_len)
  { t with data := writeAt t.data t.data_len chunk,
           data_len := t.data_len + chunk.length }

/-- Read block for one ready slot (lines 533 .. 572).  A recv error
closes the slot; otherwise the bytes are appended.  When the completion
condition of line 547 holds the length prefix is stripped, the TCP
socket is closed, and payload bytes 2 .. 2 + data_len are sent back to
the recorded client address; data_len is zeroed whether or not the
sendto succeeded.  Otherwise the slot keeps accumulating. -/
def slotRead (sio : SlotOracle) (t : dns_trx) :
    dns_trx × List (Nat × List Nat) × List LogEv :=
  match sio.recv with
  | .err => ({ t with dst_sock := 0 }, [], [.recvFailed])
  | .ok chunk0 =>
    let t1 := recvAppend t chunk0
    if tcp_message_complete t1 then
      let t2 := { t1 with data_len := t1.data_len - 2, dst_sock := 0 }
      let payload := (List.range t2.data_len).map (fun j => bufGet t2 (2 + j))
      if sio.sendtoOk then
        ({ t2 with data_len := 0 }, [(t2.addr, payload)], [.replied])
      else
        ({ t2 with data_len := 0 }, [], [.sendtoFailed])
    else (t1, [], [.truncatedWaiting])

/-- Write block for one ready slot (lines 575 .. 601): probe SO_ERROR,
closing the slot if the probe fails or reports a connect error, otherwise
run send_to_dns, closing the slot if it fails. -/
def slotWrite (sio : SlotOracle) (t : dns_trx) : dns_trx × List LogEv :=
  match sio.sockErr with
  | .fail => ({ t with dst_sock := 0 }, [.getsockoptFailed])
  | .soErr e =>
    if e ≠ 0 then ({ t with dst_sock := 0 }, [.soError e])
    else
      match send_to_dns sio.send t with
      | (none, ls) => ({ t with dst_sock := 0 }, ls ++ [.dropClosing])
      | (some t1, ls) => (t1, ls)

/-- Processing of one slot inside the per-slot loop: free slots are
skipped; the read block runs when the descriptor was in the read set, the
write block when it was in the write set and the descriptor is still
open (fd 0 is never a set member). -/
def procOne (sio : SlotOracle) (inRi inWi : Bool) (t : dns_trx) :
    dns_trx × List (Nat × List Nat) × List LogEv :=
  if t.dst_sock ≤ 0 then (t, [], [])
  else
    let r1 := if inRi then slotRead sio t else (t, [], [])
    if inWi ∧ 0 < r1.1.dst_sock then
      let r2 := slotWrite sio r1.1
      (r2.1, r1.2.1, r1.2.2 ++ r2.2)
    else r1

/-- Per-slot loop of dispatch_packets over the given index order,
threading the table and collecting emitted datagrams and logs. -/
def procSlotsGo (io : IterOracle) (inR inW : Nat → Bool) :
    List Nat → List dns_trx → List dns_trx × List (Nat × List Nat) × List LogEv
  | [], tbl => (tbl, [], [])
  | i :: rest, tbl =>
    let r := procOne (io.slots i) (inR i) (inW i) (tbl.getD i initTrx)
    let rr := procSlotsGo io inR inW rest (tbl.set i r.1)
    (rr.1, r.2.1 ++ rr.2.1, r.2.2 ++ rr.2.2)

/-- Result of one iteration of the dispatcher loop. -/
structure IterOut where
  tbl : List dns_trx
  out : List (Nat × List Nat)
  logs : List LogEv
  fatal : Bool
  udpConsumed : Bool
  deriving Repr

/-- One iteration of the dispatch_packets while loop: stale sweep and set
building, the select call (whose failure returns -1 from the dispatcher),
the UDP input block (whose recvfrom failure also returns -1), the
unfinished TCP accept block, and the per-slot read/write processing. -/
def dispatch_iter (io : IterOracle) (tbl : List dns_trx) : IterOut :=
  let b := buildPass io.curr io tbl 0
  let flags := b.2.1
  if io.selectFail then ⟨b.1, [], b.2.2 ++ [.selectFailed], true, false⟩
  else
    let u := udpPhase io b.1
    if u.fatal then ⟨u.tbl, [], b.2.2 ++ u.logs, true, u.consumed⟩
    else
      let tc := tcpPhase io u.tbl
      let p := procSlotsGo io (fun i => (flags.getD i (false, false)).1)
        (fun i => (flags.getD i (false, false)).2)
        (List.range tc.1.length) tc.1
      ⟨p.1, p.2.1, b.2.2 ++ u.logs ++ tc.2 ++ p.2.2, false, u.consumed⟩

/-- Freshly zeroed transaction table of n slots. -/
def initTable (n : Nat) : List dns_trx := List.replicate n initTrx

/-- Diagnostic label decoder dns_label_to_buf (utdns.c lines 136 .. 172),
modelled by the sequence of byte stores it performs into the output
buffer: the result is the returned count i together with the list of
(offset, value) pairs written, the terminating zero byte included.
The capacity argument len is the C int parameter; the function first
reserves one byte (len--), then dispatches on the top two bits of the
first source byte: plain copy for 00, a single underscore (byte 95) for
the compressed pointer 11, and for the binary label 01 it reads the bit
count from the second source byte, replaces the remaining capacity by
256 when that count is 0, and copies ((count - 1) >> 3) + 1 + 1 bytes
starting at the count byte (C arithmetic makes the shift of -1 give -1,
hence 0 iterations bound plus the initial one when count = 0). -/
def dns_label_to_buf (src : List Nat) (len0 : Int) : Nat × List (Nat × Nat) :=
  let len : Int := len0 - 1
  let llen := src.getD 0 0 % 256
  if llen &&& 0xc0 = 0 then
    let c := min llen (max len 0).toNat
    (c, ((List.range c).map (fun j => (j, src.getD (1 + j) 0 % 256))) ++ [(c, 0)])
  else if llen &&& 0xc0 = 0xc0 then
    if 0 < len then (1, [(0, 95), (1, 0)]) else (0, [(0, 0)])
  else if llen &&& 0xc0 = 0x40 then
    let bitcnt := src.getD 1 0 % 256
    let len1 : Int := if bitcnt = 0 then 256 else len
    let llen1 : Nat := if bitcnt = 0 then 0 else (bitcnt - 1) / 8 + 1
    let c := min (llen1 + 1) (max len1 0).toNat
    (c, ((List.range c).map (fun j => (j, src.getD (1 + j) 0 % 256))) ++ [(c, 0)])
  else (0, [(0, 0)])

/-- DNS/TCP framing of a payload: the big-endian 16-bit length prefix
followed by the payload bytes, as produced by lines 498 .. 499 of
utdns.c on the accepted-datagram path. -/
def tcpFrame (p : List Nat) : List Nat :=
  p.length / 256 % 256 :: p.length % 256 :: p

/-- Payload extracted from a completed reassembly buffer: bytes
2 .. data_len of the buffer, i.e. the upstream response with its 2-byte
length prefix stripped (the sendto argument of line 554). -/
def stripPayload (t : dns_trx) : List Nat :=
  (List.range (t.data_len - 2)).map (fun j => bufGet t (2 + j))

/-- Slot oracle reporting no readiness and benign results. -/
def sioIdle : SlotOracle := ⟨false, false, .ok [], .soErr 0, .ok 0, true⟩

/-- Oracle for the arrival iteration of the round trip: a datagram from
client a with payload p is readable on the UDP socket and the upstream
connect returns descriptor fd. -/
def rtIo1 (a : Nat) (p : List Nat) (fd : Int) : IterOracle :=
  ⟨0, 0, false, true, false, some (a, p), some fd, none, fun _ => sioIdle⟩

/-- Oracle for the send iteration of the round trip: the upstream socket
is writable, SO_ERROR is clean, and send accepts all framed bytes. -/
def rtIo2 (p : List Nat) : IterOracle :=
  ⟨0, 0, false, false, false, none, none, none,
    fun _ => ⟨false, true, .ok [], .soErr 0, .ok (p.length + 2), true⟩⟩

/-- Oracle for the receive iteration of the round trip against an
upstream that echoes the framed query bytes as its response. -/
def rtIo3 (p : List Nat) : IterOracle :=
  ⟨0, 0, false, false, false, none, none, none,
    fun _ => ⟨true, false, .ok (tcpFrame p), .soErr 0, .ok 0, true⟩⟩

/-- Slot as produced by the arrival iteration: framed query in SEND. -/
def rtSlot1 (a : Nat) (p : List Nat) (fd : Int) : dns_trx :=
  ⟨a, 0, fd, 0, CONN_STATE_SEND, p.length + 2, tcpFrame p⟩

/-- Slot after the full send: empty receive accumulator in RECV. -/
def rtSlot2 (a : Nat) (p : List Nat) (fd : Int) : dns_trx :=
  ⟨a, 0, fd, 0, CONN_STATE_RECV, 0, tcpFrame p⟩

/-- Three-iteration run of the dispatcher against the echo upstream:
arrival and framing, full send, response receive and relay. -/
def rtRun (a : Nat) (p : List Nat) (fd : Int) : IterOut :=
  dispatch_iter (rtIo3 p)
    (dispatch_iter (rtIo2 p) (dispatch_iter (rtIo1 a p fd) (initTable 1)).tbl).tbl

/-- Occupied slot for the full-table scenario. -/
def tBusy : dns_trx := { initTrx with dst_sock := 3, conn_state := CONN_STATE_SEND }

/-- Occupied slot whose start timestamp lies beyond the timeout. -/
def tStale : dns_trx := { tBusy with time := -20 }

/-- Oracle with a well-formed datagram pending while the table is full. -/
def ioTableFull : IterOracle :=
  ⟨0, 0, false, true, false, some (9, List.replicate 12 0), some 5, none, fun _ => sioIdle⟩

/-- Oracle whose select succeeds but whose recvfrom fails. -/
def ioRecvfromErr : IterOracle :=
  ⟨0, 0, false, true, false, none, some 5, none, fun _ => sioIdle⟩

/-- Oracle delivering a 5-byte (short) datagram. -/
def ioShortDgram : IterOracle :=
  ⟨0, 0, false, true, false, some (9, [1, 2, 3, 4, 5]), none, none, fun _ => sioIdle⟩

/-- SEND slot holding the framed all-zero 12-byte query. -/
def tFramed12 : dns_trx :=
  ⟨0, 0, 1, 0, CONN_STATE_SEND, 14, tcpFrame (List.replicate 12 0)⟩

/-- Char truncation is the identity on byte values. -/
theorem map_mod256_eq (l : List Nat) (h : ∀ b ∈ l, b < 256) :
    l.map (· % 256) = l := by
  induction l with
  | nil => rfl
  | cons x xs ih =>
    simp only [List.map_cons, List.cons.injEq]
    exact ⟨Nat.mod_eq_of_lt (h x (List.mem_cons_self x xs)),
      ih fun b hb => h b (List.mem_cons_of_mem x hb)⟩

/-- Reading every position of a list with default 0 reproduces the list. -/
theorem getD_self_map (l : List Nat) :
    (List.range l.length).map (fun j => l.getD j 0) = l := by
  apply List.ext_getElem
  · simp
  · intro i h1 h2
    simp only [List.getElem_map, List.getElem_range]
    exact List.getD_eq_getElem l 0 h2

/-- Overwriting at offset 0 keeps the tail beyond the written bytes. -/
theorem writeAt_zero (l v : List Nat) : writeAt l 0 v = v ++ l.drop v.length := by
  simp [writeAt]

/-- Writing nothing inside the written part of a buffer changes nothing. -/
theorem writeAt_nil (l : List Nat) (off : Nat) (h : off ≤ l.length) :
    writeAt l off [] = l := by
  simp [writeAt, Nat.sub_eq_zero_of_le h]

/-- Appending at the end of the written part of a buffer. -/
theorem writeAt_append_end (l v : List Nat) :
    writeAt l l.length v = l ++ v := by
  simp [writeAt]

/-- Arithmetic reading of the C completion condition: the int equation
data_len - 2 == ntohs(buffer) holds exactly when data_len is at least 2
and the natural difference matches the big-endian prefix. -/
theorem tcp_message_complete_iff (t : dns_trx) :
    tcp_message_complete t ↔ 2 ≤ t.data_len ∧ t.data_len - 2 = ntohs_at t := by
  unfold tcp_message_complete
  omega

/-- Recombining the big-endian split of a 16-bit value. -/
theorem hilo_eq (n : Nat) (h : n ≤ 65535) : n / 256 % 256 * 256 + n % 256 = n := by
  omega

/-- Every byte of a frame is below 256 when the payload bytes are. -/
theorem tcpFrame_bytes (p : List Nat) (h : ∀ b ∈ p, b < 256) :
    ∀ b ∈ tcpFrame p, b < 256 := by
  intro b hb
  rcases List.mem_cons.mp hb with rfl | hb1
  · exact Nat.mod_lt _ (by omega)
  · rcases List.mem_cons.mp hb1 with rfl | hb2
    · exact Nat.mod_lt _ (by omega)
    · exact h b hb2

/-- Appending a whole frame to an empty accumulator. -/
theorem recvAppend_fresh (t : dns_trx) (body : List Nat) (hdl : t.data_len = 0)
    (hb : ∀ b ∈ body, b < 256) (hlen : body.length ≤ 65535) :
    recvAppend t (tcpFrame body) =
      { t with data := tcpFrame body ++ t.data.drop (body.length + 2),
               data_len := body.length + 2 } := by
  unfold recvAppend
  rw [map_mod256_eq _ (tcpFrame_bytes body hb)]
  rw [List.take_of_length_le (by simp [tcpFrame, FRAMESIZE]; omega)]
  rw [hdl]
  simp only [writeAt_zero, tcpFrame, List.length_cons]
  have h2 : 0 + (body.length + 1 + 1) = body.length + 2 := by omega
  have h3 : body.length + 1 + 1 = body.length + 2 := by omega
  rw [h2, h3]

/-- Read step while the message is incomplete: the slot only accumulates. -/
theorem slotRead_incomplete (sio : SlotOracle) (t : dns_trx) (chunk : List Nat)
    (hrecv : sio.recv = RecvRes.ok chunk)
    (hnc : ¬ tcp_message_complete (recvAppend t chunk)) :
    slotRead sio t = (recvAppend t chunk, [], [LogEv.truncatedWaiting]) := by
  unfold slotRead
  rw [hrecv]
  simp only [if_neg hnc]

/-- Read step when the reassembly completes: the prefix is stripped, the
payload is relayed (when the sendto succeeds), and the slot descriptor
and length are cleared. -/
theorem slotRead_complete (sio : SlotOracle) (t : dns_trx) (chunk : List Nat)
    (hrecv : sio.recv = RecvRes.ok chunk)
    (hc : tcp_message_complete (recvAppend t chunk)) :
    slotRead sio t =
      ({ recvAppend t chunk with data_len := 0, dst_sock := 0 },
       if sio.sendtoOk then [((recvAppend t chunk).addr, stripPayload (recvAppend t chunk))] else [],
       [if sio.sendtoOk then LogEv.replied else LogEv.sendtoFailed]) := by
  unfold slotRead
  rw [hrecv]
  simp only [if_pos hc]
  cases hs : sio.sendtoOk <;> rfl

/-- Landing a whole frame in an empty accumulator completes the message,
and stripping recovers exactly the frame body. -/
theorem recvAppend_frame_complete (t : dns_trx) (body : List Nat)
    (hdl : t.data_len = 0) (hb : ∀ b ∈ body, b < 256) (hlen : body.length ≤ 65535) :
    tcp_message_complete (recvAppend t (tcpFrame body))
    ∧ stripPayload (recvAppend t (tcpFrame body)) = body
    ∧ (recvAppend t (tcpFrame body)).addr = t.addr := by
  rw [recvAppend_fresh t body hdl hb hlen]
  set rest := t.data.drop (body.length + 2) with hrest
  set t1 : dns_trx := { t with data := tcpFrame body ++ rest, data_len := body.length + 2 }
    with ht1
  refine ⟨?_, ?_, rfl⟩
  · unfold tcp_message_complete
    have e0 : ntohs_at t1 = body.length / 256 % 256 * 256 + body.length % 256 := rfl
    rw [e0]
    have e4 : t1.data_len = body.length + 2 := rfl
    rw [e4]
    push_cast
    omega
  · unfold stripPayload
    have e2 : t1.data_len - 2 = body.length := rfl
    rw [e2]
    have e1 : ∀ j ∈ List.range body.length,
        bufGet t1 (2 + j) = body.getD j 0 := by
      intro j hj
      have e5 : bufGet t1 (2 + j) = (body ++ rest).getD j 0 := by
        rw [Nat.add_comm]
        rfl
      rw [e5]
      exact List.getD_append _ _ _ _ (List.mem_range.mp hj)
    rw [List.map_congr_left e1]
    exact getD_self_map body

/-- Arrival step of the round trip: the datagram is framed into slot 0,
which enters CONN_STATE_SEND on descriptor fd. -/
theorem rt_step1_udp (a : Nat) (p : List Nat) (fd : Int)
    (hb : ∀ b ∈ p, b < 256) (h12 : 12 ≤ p.length) (h65 : p.length ≤ 65535) :
    udpPhase (rtIo1 a p fd) [initTrx] = ⟨[rtSlot1 a p fd], [LogEv.udpIn], true, false⟩ := by
  have hmap : p.map (· % 256) = p := map_mod256_eq p hb
  have htake : p.take FRAMESIZE = p := List.take_of_length_le (by unfold FRAMESIZE; omega)
  simp only [udpPhase, rtIo1, get_free_trx, get_free_idx, initTrx, hmap, htake]
  norm_num [h12, writeAt, rtSlot1, tcpFrame]

/-- Full arrival iteration on the fresh one-slot table. -/
theorem rt_step1 (a : Nat) (p : List Nat) (fd : Int)
    (hb : ∀ b ∈ p, b < 256) (h12 : 12 ≤ p.length) (h65 : p.length ≤ 65535)
    (hfd : 0 < fd) :
    dispatch_iter (rtIo1 a p fd) (initTable 1) =
      ⟨[rtSlot1 a p fd], [], [LogEv.udpIn], false, true⟩ := by
  have hbp : buildPass (rtIo1 a p fd).curr (rtIo1 a p fd) (initTable 1) 0 =
      ([initTrx], [(false, false)], []) := rfl
  have hfd2 : ¬ (rtSlot1 a p fd).dst_sock ≤ 0 := by
    simp only [rtSlot1]
    omega
  unfold dispatch_iter
  rw [hbp]
  have hsel : (rtIo1 a p fd).selectFail = false := rfl
  rw [hsel]
  simp only [Bool.false_eq_true, if_false]
  rw [rt_step1_udp a p fd hb h12 h65]
  have htcp : tcpPhase (rtIo1 a p fd) [rtSlot1 a p fd] = ([rtSlot1 a p fd], []) := rfl
  simp only [htcp]
  have hr1 : List.range 1 = [0] := rfl
  have hproc : procSlotsGo (rtIo1 a p fd) (fun i => (([((false : Bool), (false : Bool))].getD i (false, false)).1))
      (fun i => (([((false : Bool), (false : Bool))].getD i (false, false)).2))
      (List.range [rtSlot1 a p fd].length) [rtSlot1 a p fd] = ([rtSlot1 a p fd], [], []) := by
    simp only [List.length_cons, List.length_nil, hr1, procSlotsGo, procOne,
      List.getD_cons_zero]
    rw [if_neg hfd2]
    simp
  simp only [hproc]
  simp

/-- Send iteration of the round trip: the whole framed query is accepted
by the upstream socket and the slot moves to CONN_STATE_RECV. -/
theorem rt_step2 (a : Nat) (p : List Nat) (fd : Int) (hfd : 0 < fd) :
    dispatch_iter (rtIo2 p) [rtSlot1 a p fd] =
      ⟨[rtSlot2 a p fd], [], [], false, false⟩ := by
  have hfd2 : ¬ fd ≤ 0 := not_le.mpr hfd
  have hb1 : buildPass (rtIo2 p).curr (rtIo2 p) [rtSlot1 a p fd] 0 =
      ([rtSlot1 a p fd], [(false, true)], []) := by
    simp only [buildPass, sweepSet, rtIo2, rtSlot1]
    norm_num [TIMEOUT, CONN_STATE_SEND, hfd2]
  unfold dispatch_iter
  rw [hb1]
  have hsel : (rtIo2 p).selectFail = false := rfl
  rw [hsel]
  simp only [Bool.false_eq_true, if_false]
  have hudp : udpPhase (rtIo2 p) [rtSlot1 a p fd] = ⟨[rtSlot1 a p fd], [], false, false⟩ := rfl
  rw [hudp]
  have htcp : tcpPhase (rtIo2 p) [rtSlot1 a p fd] = ([rtSlot1 a p fd], []) := rfl
  simp only [htcp]
  have hr1 : List.range 1 = [0] := rfl
  have hproc : procSlotsGo (rtIo2 p)
      (fun i => (([((false : Bool), (true : Bool))].getD i (false, false)).1))
      (fun i => (([((false : Bool), (true : Bool))].getD i (false, false)).2))
      (List.range [rtSlot1 a p fd].length) [rtSlot1 a p fd] = ([rtSlot2 a p fd], [], []) := by
    simp only [List.length_cons, List.length_nil, hr1, procSlotsGo, procOne,
      List.getD_cons_zero]
    rw [if_neg (by simpa [rtSlot1] using hfd2)]
    simp [slotWrite, send_to_dns, rtIo2, rtSlot1, rtSlot2, hfd, CONN_STATE_RECV]
  simp only [hproc]
  simp

/-- Receive iteration of the round trip: the echoed frame completes the
reassembly at once, the prefix is stripped and the original payload is
emitted toward the recorded client address, the slot being released. -/
theorem rt_step3 (a : Nat) (p : List Nat) (fd : Int)
    (hb : ∀ b ∈ p, b < 256) (h65 : p.length ≤ 65535) (hfd : 0 < fd) :
    (dispatch_iter (rtIo3 p) [rtSlot2 a p fd]).out = [(a, p)]
    ∧ ((dispatch_iter (rtIo3 p) [rtSlot2 a p fd]).tbl.getD 0 initTrx).dst_sock = 0 := by
  have hfd2 : ¬ fd ≤ 0 := not_le.mpr hfd
  have hdl : (rtSlot2 a p fd).data_len = 0 := rfl
  obtain ⟨hc, hstrip, haddr⟩ := recvAppend_frame_complete (rtSlot2 a p fd) p hdl hb h65
  have hsio : ((rtIo3 p).slots 0).recv = RecvRes.ok (tcpFrame p) := rfl
  have hread := slotRead_complete ((rtIo3 p).slots 0) (rtSlot2 a p fd) (tcpFrame p) hsio hc
  have hsend : ((rtIo3 p).slots 0).sendtoOk = true := rfl
  rw [hsend] at hread
  simp only [if_true] at hread
  rw [haddr, hstrip] at hread
  have hb1 : buildPass (rtIo3 p).curr (rtIo3 p) [rtSlot2 a p fd] 0 =
      ([rtSlot2 a p fd], [(true, false)], []) := by
    simp only [buildPass, sweepSet, rtIo3, rtSlot2]
    norm_num [TIMEOUT, CONN_STATE_SEND, CONN_STATE_RECV, hfd2]
  unfold dispatch_iter
  rw [hb1]
  have hsel : (rtIo3 p).selectFail = false := rfl
  rw [hsel]
  simp only [Bool.false_eq_true, if_false]
  have hudp : udpPhase (rtIo3 p) [rtSlot2 a p fd] = ⟨[rtSlot2 a p fd], [], false, false⟩ := rfl
  rw [hudp]
  have htcp : tcpPhase (rtIo3 p) [rtSlot2 a p fd] = ([rtSlot2 a p fd], []) := rfl
  simp only [htcp]
  have hr1 : List.range 1 = [0] := rfl
  have hproc : procSlotsGo (rtIo3 p)
      (fun i => (([((true : Bool), (false : Bool))].getD i (false, false)).1))
      (fun i => (([((true : Bool), (false : Bool))].getD i (false, false)).2))
      (List.range [rtSlot2 a p fd].length) [rtSlot2 a p fd] =
      ([({ recvAppend (rtSlot2 a p fd) (tcpFrame p) with data_len := 0, dst_sock := 0 } : dns_trx)],
        [((rtSlot2 a p fd).addr, p)], [LogEv.replied]) := by
    simp only [List.length_cons, List.length_nil, hr1, procSlotsGo, procOne,
      List.getD_cons_zero]
    rw [if_neg (by simpa [rtSlot2] using hfd2)]
    simp [hread]
    exact haddr.symm
  simp only [hproc]
  constructor
  · simp [rtSlot2]
  · simp

/-- C1: every successfully relayed response reaches the client as the
upstream TCP response payload with its 2-byte length prefix stripped,
byte for byte; composed with framing, an upstream that echoes the framed
query bytes makes the client receive exactly the datagram it sent, for
payload lengths 12 .. 65535. -/
theorem C1_relay_strip_roundtrip :
    (∀ (sio : SlotOracle) (t : dns_trx) (body : List Nat),
       t.conn_state = CONN_STATE_RECV → t.data_len = 0 →
       (∀ b ∈ body, b < 256) → body.length ≤ 65535 →
       sio.recv = RecvRes.ok (tcpFrame body) → sio.sendtoOk = true →
       (slotRead sio t).2.1 = [(t.addr, body)] ∧ (slotRead sio t).1.dst_sock = 0)
    ∧ (∀ (a : Nat) (p : List Nat) (fd : Int),
       (∀ b ∈ p, b < 256) → 12 ≤ p.length → p.length ≤ 65535 → 0 < fd →
       (rtRun a p fd).out = [(a, p)]
       ∧ ((rtRun a p fd).tbl.getD 0 initTrx).dst_sock = 0) := by
  constructor
  · intro sio t body hst hdl hb h65 hrecv hsend
    obtain ⟨hc, hstrip, haddr⟩ := recvAppend_frame_complete t body hdl hb h65
    have hread := slotRead_complete sio t (tcpFrame body) hrecv hc
    rw [hsend] at hread
    simp only [if_true] at hread
    rw [haddr, hstrip] at hread
    rw [hread]
    exact ⟨rfl, rfl⟩
  · intro a p fd hb h12 h65 hfd
    unfold rtRun
    simp only [rt_step1 a p fd hb h12 h65 hfd]
    simp only [rt_step2 a p fd hfd]
    exact rt_step3 a p fd hb h65 hfd

/-- Concrete instance of the relay and round-trip law: a 12-byte all-zero
payload travels unchanged through frame, send, echo, reassembly, strip. -/
theorem C1_relay_strip_roundtrip_witness :
    ((slotRead ⟨true, false, RecvRes.ok (tcpFrame (List.replicate 12 0)),
        SockErrRes.soErr 0, SendRes.ok 0, true⟩
        ⟨7, 0, 3, 0, CONN_STATE_RECV, 0, []⟩).2.1 = [(7, List.replicate 12 0)])
    ∧ ((rtRun 42 (List.replicate 12 0) 5).out = [(42, List.replicate 12 0)]
       ∧ ((rtRun 42 (List.replicate 12 0) 5).tbl.getD 0 initTrx).dst_sock = 0) := by
  have h1 := C1_relay_strip_roundtrip.1
    ⟨true, false, RecvRes.ok (tcpFrame (List.replicate 12 0)),
      SockErrRes.soErr 0, SendRes.ok 0, true⟩
    ⟨7, 0, 3, 0, CONN_STATE_RECV, 0, []⟩
    (List.replicate 12 0) rfl rfl (by decide) (by decide) rfl rfl
  have h2 := C1_relay_strip_roundtrip.2 42 (List.replicate 12 0) 5
    (by decide) (by decide) (by decide) (by decide)
  exact ⟨h1.1, h2⟩

/-- C2: the completion test of the RECEIVING state holds exactly when the
meaningful length n satisfies n at least 2 and n - 2 equal to the
big-endian 16-bit integer in the first two buffer bytes; while it is
false the dispatcher keeps the slot accumulating (descriptor and state
unchanged, nothing emitted), and when it becomes true the slot is
relayed and released. -/
theorem C2_completion_predicate :
    (∀ t : dns_trx, tcp_message_complete t ↔
        2 ≤ t.data_len ∧ t.data_len - 2 = ntohs_at t)
    ∧ (∀ (sio : SlotOracle) (t : dns_trx) (chunk : List Nat),
        sio.recv = RecvRes.ok chunk →
        (¬ tcp_message_complete (recvAppend t chunk) →
          slotRead sio t = (recvAppend t chunk, [], [LogEv.truncatedWaiting])
          ∧ (recvAppend t chunk).dst_sock = t.dst_sock
          ∧ (recvAppend t chunk).conn_state = t.conn_state)
        ∧ (tcp_message_complete (recvAppend t chunk) →
          (slotRead sio t).1.dst_sock = 0 ∧ (slotRead sio t).1.data_len = 0
          ∧ (sio.sendtoOk = true →
              (slotRead sio t).2.1 =
                [((recvAppend t chunk).addr, stripPayload (recvAppend t chunk))]))) := by
  constructor
  · exact tcp_message_complete_iff
  · intro sio t chunk hrecv
    constructor
    · intro hnc
      exact ⟨slotRead_incomplete sio t chunk hrecv hnc, rfl, rfl⟩
    · intro hc
      have hread := slotRead_complete sio t chunk hrecv hc
      rw [hread]
      refine ⟨rfl, rfl, ?_⟩
      intro hs
      rw [hs]
      simp

/-- Concrete instance of the completion behavior: a single byte leaves
the reassembly incomplete, a zero-length frame completes it at once. -/
theorem C2_completion_predicate_witness :
    (¬ tcp_message_complete (recvAppend ⟨7, 0, 3, 0, CONN_STATE_RECV, 0, []⟩ [1]))
    ∧ slotRead ⟨true, false, RecvRes.ok [1], SockErrRes.soErr 0, SendRes.ok 0, true⟩
        ⟨7, 0, 3, 0, CONN_STATE_RECV, 0, []⟩ =
        (recvAppend ⟨7, 0, 3, 0, CONN_STATE_RECV, 0, []⟩ [1], [], [LogEv.truncatedWaiting])
    ∧ tcp_message_complete (recvAppend ⟨7, 0, 3, 0, CONN_STATE_RECV, 0, []⟩ [0, 0])
    ∧ (slotRead ⟨true, false, RecvRes.ok [0, 0], SockErrRes.soErr 0, SendRes.ok 0, true⟩
        ⟨7, 0, 3, 0, CONN_STATE_RECV, 0, []⟩).1.dst_sock = 0 := by
  refine ⟨by decide, ?_, by decide, ?_⟩
  · exact ((C2_completion_predicate.2 _ _ [1] rfl).1 (by decide)).1
  · exact ((C2_completion_predicate.2 _ _ [0, 0] rfl).2 (by decide)).1

/-- Compacting the buffer by a partial send of k bytes shifts the
meaningful bytes down by k. -/
theorem meaning_after_compact (t : dns_trx) (k : Nat) :
    (({ t with data := writeAt t.data 0
                 ((List.range (t.data_len - k)).map (fun j => bufGet t (k + j))),
               data_len := t.data_len - k } : dns_trx)).meaning =
      t.meaning.drop k := by
  unfold dns_trx.meaning
  apply List.ext_getElem
  · simp
  · intro i h1 h2
    simp only [List.getElem_map, List.getElem_range, List.getElem_drop]
    have hv : i < ((List.range (t.data_len - k)).map (fun j => bufGet t (k + j))).length := by
      simp only [List.length_map, List.length_range]
      simpa using h1
    show (writeAt t.data 0 ((List.range (t.data_len - k)).map (fun j => bufGet t (k + j)))).getD i 0
        = bufGet t (k + i)
    rw [writeAt_zero, List.getD_append _ _ _ _ hv, List.getD_eq_getElem _ _ hv]
    simp

/-- C3: a SENDING slot whose send transmits k of its n buffered bytes
compacts the buffer to the remaining suffix, keeps state SENDING and
length n - k when k < n, and moves to RECEIVING with length 0 when
k = n. -/
theorem C3_send_transitions (t : dns_trx) (k : Nat)
    (hst : t.conn_state = CONN_STATE_SEND) (hk : k ≤ t.data_len) :
    (k < t.data_len →
      (send_to_dns (SendRes.ok k) t).2 = [LogEv.sendTruncated]
      ∧ ∃ t1, (send_to_dns (SendRes.ok k) t).1 = some t1
          ∧ t1.meaning = t.meaning.drop k ∧ t1.data_len = t.data_len - k
          ∧ t1.conn_state = CONN_STATE_SEND ∧ t1.dst_sock = t.dst_sock)
    ∧ (k = t.data_len →
      ∃ t1, (send_to_dns (SendRes.ok k) t).1 = some t1
          ∧ t1.conn_state = CONN_STATE_RECV ∧ t1.data_len = 0
          ∧ t1.dst_sock = t.dst_sock) := by
  constructor
  · intro hlt
    simp only [send_to_dns]
    rw [if_pos hlt]
    exact ⟨rfl, _, rfl, meaning_after_compact t k, rfl, hst, rfl⟩
  · intro heq
    simp only [send_to_dns]
    rw [if_neg (by omega)]
    exact ⟨_, rfl, rfl, by show t.data_len - k = 0; omega, rfl⟩

/-- Concrete instance of the send transitions on the framed 12-byte
query: a 1-byte partial send compacts and stays in SENDING, a 14-byte
full send resets the length and enters RECEIVING. -/
theorem C3_send_transitions_witness :
    ((send_to_dns (SendRes.ok 1) tFramed12).2 = [LogEv.sendTruncated]
     ∧ ∃ t1, (send_to_dns (SendRes.ok 1) tFramed12).1 = some t1
         ∧ t1.meaning = tFramed12.meaning.drop 1 ∧ t1.data_len = tFramed12.data_len - 1
         ∧ t1.conn_state = CONN_STATE_SEND ∧ t1.dst_sock = tFramed12.dst_sock)
    ∧ (∃ t1, (send_to_dns (SendRes.ok 14) tFramed12).1 = some t1
         ∧ t1.conn_state = CONN_STATE_RECV ∧ t1.data_len = 0
         ∧ t1.dst_sock = tFramed12.dst_sock) :=
  ⟨(C3_send_transitions tFramed12 1 rfl (by decide)).1 (by decide),
   (C3_send_transitions tFramed12 14 rfl (by decide)).2 (by decide)⟩

/-- C4 as stated fails on the code: with every slot occupied the arriving
datagram is not consumed at all; the dispatcher logs a warning, never
calls recvfrom, allocates nothing, and leaves the table as it was, so
the datagram stays queued for the next iteration. -/
theorem C4_counterexample :
    (dispatch_iter ioTableFull [tBusy]).udpConsumed = false
    ∧ (dispatch_iter ioTableFull [tBusy]).tbl = [tBusy]
    ∧ (dispatch_iter ioTableFull [tBusy]).logs = [LogEv.tableFull] := by
  decide

/-- C4 amended: on a full table the UDP block only warns; the datagram is
left unread (not consumed, not dropped by the dispatcher), no slot is
touched, and nothing is fatal. -/
theorem C4_full_table_defers (io : IterOracle) (tbl : List dns_trx)
    (hud : io.udpReady = true) (hocc : ∀ t ∈ tbl, 0 < t.dst_sock) :
    udpPhase io tbl = ⟨tbl, [LogEv.tableFull], false, false⟩ := by
  have hfree : ∀ l : List dns_trx, (∀ t ∈ l, 0 < t.dst_sock) → get_free_idx l = none := by
    intro l
    induction l with
    | nil => intro _; rfl
    | cons t ts ih =>
      intro hl
      have h1 : ¬ t.dst_sock ≤ 0 := not_le.mpr (hl t (List.mem_cons_self t ts))
      simp only [get_free_idx, if_neg h1]
      rw [ih (fun x hx => hl x (List.mem_cons_of_mem t hx))]
      rfl
  have hgf : get_free_trx tbl = (tbl, none) := by
    simp [get_free_trx, hfree tbl hocc]
  simp only [udpPhase, hud, Bool.not_true, Bool.false_eq_true, if_false, hgf]

/-- Concrete instance of the amended table-full behavior. -/
theorem C4_full_table_defers_witness :
    udpPhase ioTableFull [tBusy] = ⟨[tBusy], [LogEv.tableFull], false, false⟩ :=
  C4_full_table_defers ioTableFull [tBusy] rfl (by decide)

/-- C5 as stated fails on the code: a failed datagram read on the UDP
listener terminates the dispatcher even though the readiness wait
succeeded. -/
theorem C5_counterexample :
    (dispatch_iter ioRecvfromErr (initTable 1)).fatal = true
    ∧ ioRecvfromErr.selectFail = false := by
  decide

/-- Fatality of the UDP block: exactly a failing recvfrom after a free
slot was found. -/
theorem udpPhase_fatal (io : IterOracle) (tbl : List dns_trx) :
    (udpPhase io tbl).fatal = true ↔
      io.udpReady = true ∧ io.recvfrom = none ∧ get_free_idx tbl ≠ none := by
  unfold udpPhase
  cases hud : io.udpReady with
  | false => simp [hud]
  | true =>
    simp only [hud, Bool.not_true, Bool.false_eq_true, if_false]
    cases hfi : get_free_idx tbl with
    | none =>
      have hgf : get_free_trx tbl = (tbl, none) := by simp [get_free_trx, hfi]
      rw [hgf]
      simp [hfi]
    | some i =>
      have hgf : get_free_trx tbl =
          (tbl.set i { tbl.getD i initTrx with conn_state := CONN_STATE_NA }, some i) := by
        simp [get_free_trx, hfi]
      rw [hgf]
      cases hrf : io.recvfrom with
      | none => simp [hrf, hfi]
      | some pr =>
        rcases pr with ⟨a, dg⟩
        constructor
        · intro hfa
          exfalso
          revert hfa
          split <;> (try split) <;> (try split) <;> (try split) <;> simp_all
        · rintro ⟨_, h2, _⟩
          exact absurd h2 (by simp)

/-- C5 amended: an iteration is fatal exactly when the readiness wait
fails or when the UDP datagram read fails after a free slot was found;
every upstream-socket error instead zeroes the descriptor of the
affected slot only, with its log events. -/
theorem C5_fatal_characterization :
    (∀ (io : IterOracle) (tbl : List dns_trx),
      (dispatch_iter io tbl).fatal = true ↔
        (io.selectFail = true ∨ (io.udpReady = true ∧ io.recvfrom = none
          ∧ get_free_idx (buildPass io.curr io tbl 0).1 ≠ none)))
    ∧ (∀ (sio : SlotOracle) (t : dns_trx), sio.recv = RecvRes.err →
        slotRead sio t = ({ t with dst_sock := 0 }, [], [LogEv.recvFailed]))
    ∧ (∀ (sio : SlotOracle) (t : dns_trx), sio.sockErr = SockErrRes.fail →
        slotWrite sio t = ({ t with dst_sock := 0 }, [LogEv.getsockoptFailed]))
    ∧ (∀ (sio : SlotOracle) (t : dns_trx) (e : Nat), sio.sockErr = SockErrRes.soErr e →
        e ≠ 0 → slotWrite sio t = ({ t with dst_sock := 0 }, [LogEv.soError e]))
    ∧ (∀ (sio : SlotOracle) (t : dns_trx), sio.sockErr = SockErrRes.soErr 0 →
        sio.send = SendRes.err →
        slotWrite sio t = ({ t with dst_sock := 0 }, [LogEv.sendFailed, LogEv.dropClosing])) := by
  refine ⟨?_, ?_, ?_, ?_, ?_⟩
  · intro io tbl
    unfold dispatch_iter
    cases hsel : io.selectFail with
    | true => simp [hsel]
    | false =>
      simp only [hsel, Bool.false_eq_true, if_false]
      have hu := udpPhase_fatal io (buildPass io.curr io tbl 0).1
      cases hf : (udpPhase io (buildPass io.curr io tbl 0).1).fatal with
      | true =>
        rw [hf] at hu
        simp only [hf, if_true]
        exact iff_of_true trivial (Or.inr (hu.mp rfl))
      | false =>
        rw [hf] at hu
        simp only [Bool.false_eq_true, false_iff] at hu
        simp [hf, hu]
  · intro sio t hr
    unfold slotRead
    rw [hr]
  · intro sio t hs
    unfold slotWrite
    rw [hs]
  · intro sio t e hs he
    unfold slotWrite
    rw [hs]
    simp only [if_pos he]
  · intro sio t hs hsend
    unfold slotWrite
    rw [hs]
    simp only [ne_eq, not_true_eq_false, if_false, send_to_dns, hsend]
    rfl

/-- Concrete instance of the fatality characterization and of per-slot
error containment. -/
theorem C5_fatal_characterization_witness :
    ((dispatch_iter ioRecvfromErr (initTable 1)).fatal = true ↔
      (ioRecvfromErr.selectFail = true ∨ (ioRecvfromErr.udpReady = true
        ∧ ioRecvfromErr.recvfrom = none
        ∧ get_free_idx (buildPass ioRecvfromErr.curr ioRecvfromErr (initTable 1) 0).1 ≠ none)))
    ∧ slotRead ⟨true, false, RecvRes.err, SockErrRes.soErr 0, SendRes.ok 0, true⟩ tBusy =
        ({ tBusy with dst_sock := 0 }, [], [LogEv.recvFailed]) :=
  ⟨C5_fatal_characterization.1 ioRecvfromErr (initTable 1),
   C5_fatal_characterization.2.1
     ⟨true, false, RecvRes.err, SockErrRes.soErr 0, SendRes.ok 0, true⟩ tBusy rfl⟩

/-- An occupied slot that survives the sweep is unchanged and fresh. -/
theorem sweepSet_keep (curr : Int) (sio : SlotOracle) (t : dns_trx)
    (h : 0 < (sweepSet curr sio t).1.dst_sock) :
    (sweepSet curr sio t).1 = t ∧ curr - TIMEOUT ≤ t.time := by
  unfold sweepSet at h ⊢
  split_ifs at h ⊢ with h1 h2 h3 h4
  · exact ⟨rfl, by simp at h; omega⟩
  · simp at h
  · exact ⟨rfl, by omega⟩
  · exact ⟨rfl, by omega⟩
  · exact ⟨rfl, by omega⟩

/-- C6: the sweep at the head of every dispatcher iteration, before the
readiness wait, closes each occupied slot whose timestamp t satisfies
t < now - TIMEOUT (returning it to the free pool, since freeness is
dst_sock at most 0), and afterwards every occupied slot has a timestamp
within the last TIMEOUT seconds. -/
theorem C6_stale_sweep :
    (∀ (curr : Int) (sio : SlotOracle) (t : dns_trx),
       0 < t.dst_sock → t.time < curr - TIMEOUT →
       (sweepSet curr sio t).1 = { t with dst_sock := 0 })
    ∧ (∀ (curr : Int) (io : IterOracle) (tbl : List dns_trx) (i0 i : Nat),
       0 < ((buildPass curr io tbl i0).1.getD i initTrx).dst_sock →
       curr - TIMEOUT ≤ ((buildPass curr io tbl i0).1.getD i initTrx).time) := by
  constructor
  · intro curr sio t hocc hstale
    unfold sweepSet
    rw [if_neg (by omega), if_pos hstale]
  · intro curr io tbl
    induction tbl with
    | nil =>
      intro i0 i h
      simp only [buildPass, List.getD] at h
      simp [initTrx] at h
    | cons t ts ih =>
      intro i0 i
      cases i with
      | zero =>
        intro h
        simp only [buildPass, List.getD_cons_zero] at h ⊢
        obtain ⟨he, hf⟩ := sweepSet_keep curr (io.slots i0) t h
        rw [he]
        exact hf
      | succ j =>
        intro h
        simp only [buildPass, List.getD_cons_succ] at h ⊢
        exact ih (i0 + 1) j h

/-- Concrete instance of the sweep: a slot 20 seconds old is closed, a
fresh one survives with its timestamp within the window. -/
theorem C6_stale_sweep_witness :
    (sweepSet 0 sioIdle tStale).1 = { tStale with dst_sock := 0 }
    ∧ ((0 : Int) - TIMEOUT ≤ ((buildPass 0 ioTableFull [tBusy] 0).1.getD 0 initTrx).time) :=
  ⟨C6_stale_sweep.1 0 sioIdle tStale (by decide) (by decide),
   C6_stale_sweep.2 0 ioTableFull [tBusy] 0 0 (by decide)⟩

/-- C7 as stated fails on the code: after short-datagram rejection the
slot is free (descriptor invalid, state IDLE) yet its buffer length is
the datagram length 5, so invalid descriptor and zero length are not
equivalent at quiescence. -/
theorem C7_counterexample :
    ((dispatch_iter ioShortDgram (initTable 1)).tbl.getD 0 initTrx).dst_sock ≤ 0
    ∧ ((dispatch_iter ioShortDgram (initTable 1)).tbl.getD 0 initTrx).conn_state = CONN_STATE_NA
    ∧ ((dispatch_iter ioShortDgram (initTable 1)).tbl.getD 0 initTrx).data_len = 5
    ∧ ¬ ((((dispatch_iter ioShortDgram (initTable 1)).tbl.getD 0 initTrx).dst_sock ≤ 0) ↔
         (((dispatch_iter ioShortDgram (initTable 1)).tbl.getD 0 initTrx).data_len = 0)) := by
  decide

/-- The free-slot search returns an index inside the table pointing at a
slot whose descriptor is at most 0. -/
theorem get_free_idx_lt (tbl : List dns_trx) (i : Nat)
    (h : get_free_idx tbl = some i) :
    i < tbl.length ∧ (tbl.getD i initTrx).dst_sock ≤ 0 := by
  induction tbl generalizing i with
  | nil => simp [get_free_idx] at h
  | cons t ts ih =>
    unfold get_free_idx at h
    by_cases h1 : t.dst_sock ≤ 0
    · rw [if_pos h1] at h
      have h0 : i = 0 := by
        injection h with h2
        omega
      subst h0
      simp only [List.getD_cons_zero, List.length_cons]
      exact ⟨Nat.succ_pos _, h1⟩
    · rw [if_neg h1] at h
      cases hfi : get_free_idx ts with
      | none =>
        rw [hfi] at h
        simp at h
      | some j =>
        rw [hfi] at h
        simp only [Option.map_some'] at h
        injection h with h2
        subst h2
        obtain ⟨hlt, hle⟩ := ih j hfi
        simp only [List.getD_cons_succ, List.length_cons]
        exact ⟨by omega, hle⟩

/-- Reading back the slot just stored in the table. -/
theorem getD_set_self (l : List dns_trx) (i : Nat) (x : dns_trx) (h : i < l.length) :
    (l.set i x).getD i initTrx = x := by
  rw [List.getD_eq_getElem _ _ (by simpa using h)]
  simp

/-- C7 amended: the three conditions are not pairwise equivalent at
quiescence; slot freeness is decided by dst_sock at most 0 alone, and
every refusing or abandoning path establishes exactly that: allocation
picks a slot with dst_sock at most 0 and resets only its state,
short-datagram rejection keeps the invalid descriptor but leaves the
datagram length in data_len, connect failure stores -1 and zeroes the
length, a completed relay zeroes the descriptor and the length but
leaves the state at RECV, and recv errors, the stale sweep, and
write-path errors zero the descriptor without resetting state or
length. -/
theorem C7_free_criterion :
    (∀ (tbl : List dns_trx) (i : Nat), get_free_idx tbl = some i →
        (tbl.getD i initTrx).dst_sock ≤ 0
        ∧ ((get_free_trx tbl).1.getD i initTrx).conn_state = CONN_STATE_NA
        ∧ ((get_free_trx tbl).1.getD i initTrx).dst_sock = (tbl.getD i initTrx).dst_sock)
    ∧ (∀ (io : IterOracle) (tbl : List dns_trx) (i : Nat) (a : Nat) (dg : List Nat),
        io.udpReady = true → io.recvfrom = some (a, dg) → get_free_idx tbl = some i →
        ((dg.map (· % 256)).take FRAMESIZE).length < 12 →
        ((udpPhase io tbl).tbl.getD i initTrx).dst_sock = (tbl.getD i initTrx).dst_sock
        ∧ ((udpPhase io tbl).tbl.getD i initTrx).data_len =
            ((dg.map (· % 256)).take FRAMESIZE).length)
    ∧ (∀ (io : IterOracle) (tbl : List dns_trx) (i : Nat) (a : Nat) (dg : List Nat),
        io.udpReady = true → io.recvfrom = some (a, dg) → get_free_idx tbl = some i →
        12 ≤ ((dg.map (· % 256)).take FRAMESIZE).length → io.connectRes = none →
        ((udpPhase io tbl).tbl.getD i initTrx).dst_sock = -1
        ∧ ((udpPhase io tbl).tbl.getD i initTrx).data_len = 0)
    ∧ (∀ (sio : SlotOracle) (t : dns_trx), sio.recv = RecvRes.err →
        (slotRead sio t).1.dst_sock = 0)
    ∧ (∀ (sio : SlotOracle) (t : dns_trx) (chunk : List Nat), sio.recv = RecvRes.ok chunk →
        tcp_message_complete (recvAppend t chunk) →
        (slotRead sio t).1.dst_sock = 0 ∧ (slotRead sio t).1.data_len = 0
        ∧ (slotRead sio t).1.conn_state = t.conn_state)
    ∧ (∀ (curr : Int) (sio : SlotOracle) (t : dns_trx),
        0 < t.dst_sock → t.time < curr - TIMEOUT → (sweepSet curr sio t).1.dst_sock = 0)
    ∧ (∀ (sio : SlotOracle) (t : dns_trx),
        (sio.sockErr = SockErrRes.fail
          ∨ (∃ e, sio.sockErr = SockErrRes.soErr e ∧ e ≠ 0)
          ∨ (sio.sockErr = SockErrRes.soErr 0 ∧ sio.send = SendRes.err)) →
        (slotWrite sio t).1.dst_sock = 0) := by
  refine ⟨?_, ?_, ?_, ?_, ?_, ?_, ?_⟩
  · intro tbl i hfi
    obtain ⟨hilt, hle⟩ := get_free_idx_lt tbl i hfi
    have hgf : (get_free_trx tbl).1 =
        tbl.set i { tbl.getD i initTrx with conn_state := CONN_STATE_NA } := by
      simp [get_free_trx, hfi]
    rw [hgf, getD_set_self _ _ _ hilt]
    exact ⟨hle, rfl, rfl⟩
  · intro io tbl i a dg hud hrf hfi hlen
    obtain ⟨hilt, _⟩ := get_free_idx_lt tbl i hfi
    have hgf : get_free_trx tbl =
        (tbl.set i { tbl.getD i initTrx with conn_state := CONN_STATE_NA }, some i) := by
      simp [get_free_trx, hfi]
    unfold udpPhase
    simp only [hud, Bool.not_true, Bool.false_eq_true, if_false, hgf, hrf]
    rw [if_neg (by omega)]
    have hset : ∀ u : dns_trx,
        ((tbl.set i { tbl.getD i initTrx with conn_state := CONN_STATE_NA }).set i u).getD i
          initTrx = u := by
      intro u
      exact getD_set_self _ _ _ (by simpa using hilt)
    have ht0 : (tbl.set i { tbl.getD i initTrx with conn_state := CONN_STATE_NA }).getD i
        initTrx = { tbl.getD i initTrx with conn_state := CONN_STATE_NA } :=
      getD_set_self _ _ _ hilt
    simp only [UdpRes.tbl, hset, ht0]
    constructor <;> trivial
  · intro io tbl i a dg hud hrf hfi hlen hcr
    obtain ⟨hilt, _⟩ := get_free_idx_lt tbl i hfi
    have hgf : get_free_trx tbl =
        (tbl.set i { tbl.getD i initTrx with conn_state := CONN_STATE_NA }, some i) := by
      simp [get_free_trx, hfi]
    unfold udpPhase
    simp only [hud, Bool.not_true, Bool.false_eq_true, if_false, hgf, hrf]
    rw [if_pos hlen]
    simp only [hcr]
    have hset : ∀ u : dns_trx,
        ((tbl.set i { tbl.getD i initTrx with conn_state := CONN_STATE_NA }).set i u).getD i
          initTrx = u := by
      intro u
      exact getD_set_self _ _ _ (by simpa using hilt)
    simp only [UdpRes.tbl, hset]
    constructor <;> trivial
  · intro sio t hr
    unfold slotRead
    rw [hr]
  · intro sio t chunk hr hc
    rw [slotRead_complete sio t chunk hr hc]
    exact ⟨rfl, rfl, rfl⟩
  · intro curr sio t hocc hstale
    unfold sweepSet
    rw [if_neg (by omega), if_pos hstale]
  · intro sio t h
    rcases h with hs | ⟨e, hs, he⟩ | ⟨hs, hsend⟩
    · have h1 : slotWrite sio t = ({ t with dst_sock := 0 }, [LogEv.getsockoptFailed]) := by
        unfold slotWrite
        rw [hs]
      rw [h1]
    · have h1 : slotWrite sio t = ({ t with dst_sock := 0 }, [LogEv.soError e]) := by
        unfold slotWrite
        rw [hs]
        simp only [if_pos he]
      rw [h1]
    · have h1 : slotWrite sio t =
          ({ t with dst_sock := 0 }, [LogEv.sendFailed, LogEv.dropClosing]) := by
        unfold slotWrite
        rw [hs]
        simp only [ne_eq, not_true_eq_false, if_false, send_to_dns, hsend]
        rfl
      rw [h1]

/-- Concrete instance of the amended free-slot criterion on the short
datagram path: a 5-byte datagram into the fresh table leaves slot 0 free
by the dst_sock criterion with data_len 5. -/
theorem C7_free_criterion_witness :
    ((udpPhase ioShortDgram (initTable 1)).tbl.getD 0 initTrx).dst_sock =
      ((initTable 1).getD 0 initTrx).dst_sock
    ∧ ((udpPhase ioShortDgram (initTable 1)).tbl.getD 0 initTrx).data_len =
        (([1, 2, 3, 4, 5].map (· % 256)).take FRAMESIZE).length :=
  C7_free_criterion.2.1 ioShortDgram (initTable 1) 0 9 [1, 2, 3, 4, 5]
    rfl rfl rfl (by decide)

/-- C8 as stated fails on the code: before any partial send the SENDING
invariant holds on the framed 12-byte query, but after a partial send of
1 byte the compacted buffer no longer starts with the big-endian
encoding of data_len - 2. -/
theorem C8_counterexample :
    bufGet tFramed12 0 * 256 + bufGet tFramed12 1 = tFramed12.data_len - 2
    ∧ ((send_to_dns (SendRes.ok 1) tFramed12).1.getD initTrx).conn_state = CONN_STATE_SEND
    ∧ ((send_to_dns (SendRes.ok 1) tFramed12).1.getD initTrx).data_len = 13
    ∧ ¬ (bufGet ((send_to_dns (SendRes.ok 1) tFramed12).1.getD initTrx) 0 * 256
          + bufGet ((send_to_dns (SendRes.ok 1) tFramed12).1.getD initTrx) 1
        = ((send_to_dns (SendRes.ok 1) tFramed12).1.getD initTrx).data_len - 2) := by
  decide

/-- C8 amended: the prefix invariant holds at allocation (a freshly
framed SENDING slot has data_len of at least 2 and its first two bytes
encode data_len - 2 big-endian); a partial send instead leaves the
remaining suffix of the framed message at offset 0, so the prefix
equation is not maintained across partial sends. -/
theorem C8_prefix_at_allocation :
    (∀ (io : IterOracle) (tbl : List dns_trx) (i a : Nat) (dg : List Nat) (fd : Int),
       io.udpReady = true → io.recvfrom = some (a, dg) → get_free_idx tbl = some i →
       io.connectRes = some fd →
       12 ≤ ((dg.map (· % 256)).take FRAMESIZE).length →
       ((dg.map (· % 256)).take FRAMESIZE).length ≤ 65535 →
       ((udpPhase io tbl).tbl.getD i initTrx).conn_state = CONN_STATE_SEND
       ∧ 2 ≤ ((udpPhase io tbl).tbl.getD i initTrx).data_len
       ∧ bufGet ((udpPhase io tbl).tbl.getD i initTrx) 0 * 256
           + bufGet ((udpPhase io tbl).tbl.getD i initTrx) 1
         = ((udpPhase io tbl).tbl.getD i initTrx).data_len - 2)
    ∧ (∀ (t : dns_trx) (k : Nat), 0 < k → k < t.data_len →
       ∃ t1, (send_to_dns (SendRes.ok k) t).1 = some t1
         ∧ t1.meaning = t.meaning.drop k ∧ t1.data_len = t.data_len - k
         ∧ t1.conn_state = t.conn_state) := by
  constructor
  · intro io tbl i a dg fd hud hrf hfi hcr h12 h65
    obtain ⟨hilt, _⟩ := get_free_idx_lt tbl i hfi
    have hgf : get_free_trx tbl =
        (tbl.set i { tbl.getD i initTrx with conn_state := CONN_STATE_NA }, some i) := by
      simp [get_free_trx, hfi]
    unfold udpPhase
    simp only [hud, Bool.not_true, Bool.false_eq_true, if_false, hgf, hrf]
    rw [if_pos h12]
    simp only [hcr]
    have hset : ∀ u : dns_trx,
        ((tbl.set i { tbl.getD i initTrx with conn_state := CONN_STATE_NA }).set i u).getD i
          initTrx = u := by
      intro u
      exact getD_set_self _ _ _ (by simpa using hilt)
    simp only [UdpRes.tbl, hset]
    refine ⟨by trivial, by simp, ?_⟩
    unfold bufGet
    simp only [writeAt_zero, List.cons_append, List.nil_append, List.getD_cons_zero,
      List.getD_cons_succ]
    omega
  · intro t k hk0 hklt
    simp only [send_to_dns]
    rw [if_pos hklt]
    exact ⟨_, rfl, meaning_after_compact t k, rfl, rfl⟩

/-- Concrete instance of the amended SENDING invariant: it holds on the
freshly allocated framed query and a partial send keeps the suffix. -/
theorem C8_prefix_at_allocation_witness :
    (((udpPhase (rtIo1 9 (List.replicate 12 0) 5) (initTable 1)).tbl.getD 0
        initTrx).conn_state = CONN_STATE_SEND
     ∧ 2 ≤ ((udpPhase (rtIo1 9 (List.replicate 12 0) 5) (initTable 1)).tbl.getD 0
        initTrx).data_len
     ∧ bufGet ((udpPhase (rtIo1 9 (List.replicate 12 0) 5) (initTable 1)).tbl.getD 0 initTrx) 0
           * 256
         + bufGet ((udpPhase (rtIo1 9 (List.replicate 12 0) 5) (initTable 1)).tbl.getD 0
            initTrx) 1
       = ((udpPhase (rtIo1 9 (List.replicate 12 0) 5) (initTable 1)).tbl.getD 0
          initTrx).data_len - 2)
    ∧ (∃ t1, (send_to_dns (SendRes.ok 1) tFramed12).1 = some t1
        ∧ t1.meaning = tFramed12.meaning.drop 1 ∧ t1.data_len = tFramed12.data_len - 1
        ∧ t1.conn_state = tFramed12.conn_state) :=
  ⟨C8_prefix_at_allocation.1 (rtIo1 9 (List.replicate 12 0) 5) (initTable 1) 0 9
      (List.replicate 12 0) 5 rfl rfl rfl rfl (by decide) (by decide),
   C8_prefix_at_allocation.2 tFramed12 1 (by decide) (by decide)⟩

/-- C9: the diagnostic label decoder violates its bound in the
binary-label case with bit count 0: the code overwrites the remaining
output capacity with 256 (instead of setting the bit count), so on the
two-byte wire input 0x41 0x00 with output capacity 1 it stores a data
byte at offset 0 and the terminating zero at offset 1, two bytes into a
one-byte buffer; moreover even with ample capacity it decodes one byte,
not the ceil(256 / 8) = 32 bytes the RFC 2673 reading prescribes. -/
theorem C9_label_decoder_overflow :
    dns_label_to_buf [65, 0] 1 = (1, [(0, 0), (1, 0)])
    ∧ (1, 0) ∈ (dns_label_to_buf [65, 0] 1).2
    ∧ (dns_label_to_buf [65, 0] 300).1 = 1 := by
  decide

/-- C10: an orderly remote close (recv returning 0 bytes) on an
incomplete RECEIVING slot is not treated as an error: the slot, its
state and its buffer length are unchanged, no UDP response is emitted,
and only the stale sweep (timestamp older than TIMEOUT) reclaims it,
while a fresh slot survives the sweep untouched. -/
theorem C10_eof_keeps_slot (curr : Int) (sio : SlotOracle) (t : dns_trx)
    (hst : t.conn_state = CONN_STATE_RECV) (hocc : 0 < t.dst_sock)
    (hlen : t.data_len ≤ t.data.length) (hrecv : sio.recv = RecvRes.ok [])
    (hnc : ¬ tcp_message_complete t) :
    slotRead sio t = (t, [], [LogEv.truncatedWaiting])
    ∧ (t.time < curr - TIMEOUT → (sweepSet curr sio t).1 = { t with dst_sock := 0 })
    ∧ (curr - TIMEOUT ≤ t.time →
        (sweepSet curr sio t).1 = t ∧ (sweepSet curr sio t).2.1 = sio.rdReady) := by
  have hra : recvAppend t [] = t := by
    unfold recvAppend
    simp only [List.map_nil, List.take_nil]
    rw [writeAt_nil _ _ hlen]
    simp
  refine ⟨?_, ?_, ?_⟩
  · have hnc1 : ¬ tcp_message_complete (recvAppend t []) := by
      rw [hra]
      exact hnc
    rw [slotRead_incomplete sio t [] hrecv hnc1, hra]
  · intro hstale
    unfold sweepSet
    rw [if_neg (by omega), if_pos hstale]
  · intro hfresh
    unfold sweepSet
    rw [if_neg (by omega), if_neg (by omega), hst]
    norm_num [CONN_STATE_SEND, CONN_STATE_RECV]

/-- Concrete instance of the orderly-close behavior: a zero-byte read on
an empty RECEIVING slot leaves it untouched, and the fresh slot survives
the sweep. -/
theorem C10_eof_keeps_slot_witness :
    slotRead ⟨true, false, RecvRes.ok [], SockErrRes.soErr 0, SendRes.ok 0, true⟩
        ⟨7, 0, 3, 0, CONN_STATE_RECV, 0, []⟩ =
      (⟨7, 0, 3, 0, CONN_STATE_RECV, 0, []⟩, [], [LogEv.truncatedWaiting])
    ∧ (sweepSet 0 ⟨true, false, RecvRes.ok [], SockErrRes.soErr 0, SendRes.ok 0, true⟩
        ⟨7, 0, 3, 0, CONN_STATE_RECV, 0, []⟩).1 = ⟨7, 0, 3, 0, CONN_STATE_RECV, 0, []⟩ := by
  have h := C10_eof_keeps_slot 0
    ⟨true, false, RecvRes.ok [], SockErrRes.soErr 0, SendRes.ok 0, true⟩
    ⟨7, 0, 3, 0, CONN_STATE_RECV, 0, []⟩ rfl (by decide) (by decide) rfl (by decide)
  exact ⟨h.1, (h.2.2 (by decide)).1⟩
